import Mathlib

/-!
Verification of the watchdog transit-monitoring core: a shallow embedding in
Lean 4 of the backoff store, the retrying HTTP executor, the GTFS bundle
pipeline and the consistency reconcilers, together with proofs of the
behavioural properties stated in the specification.

Durations are modelled in nanoseconds as `Nat` (Go `time.Duration` is an
integer number of nanoseconds).  Server ids are `Int` (Go `int`).  Keyed
stores are modelled as functions `Int → Option α`.
-/

namespace Watchdog

/-! ## Backoff constants (config package) -/

/-- Go's `BASE_BACKOFF = 1 * time.Second` in nanoseconds. -/
def BASE_BACKOFF : Nat := 1000000000

/-- Go's `MAX_BACKOFF = 2 * time.Minute` in nanoseconds. -/
def MAX_BACKOFF : Nat := 120000000000

/-- Go's `BACKOFF_FACTOR = 2.0`; multiplying a `time.Duration` by this untyped
constant is integer multiplication by 2. -/
def BACKOFF_FACTOR : Nat := 2

/-- Go's `calculateNewBackoffDelay` doubles the delay and caps it at `MAX_BACKOFF`:
`backoffDelay *= BACKOFF_FACTOR; if backoffDelay >= MAX_BACKOFF { backoffDelay = MAX_BACKOFF }`. -/
def calculateNewBackoffDelay (backoffDelay : Nat) : Nat :=
  let d := backoffDelay * BACKOFF_FACTOR
  if d ≥ MAX_BACKOFF then MAX_BACKOFF else d

/-- Go's `calculateNextRetryAt`: adds a jitter amount to the backoff, caps the total
at `MAX_BACKOFF` and adds it to the current time.  The random draw
`rand.Float64() * float64(backoff) * JITTER_FACTOR` is abstracted into the
explicit `jitter` argument; `now` stands for `time.Now()`. -/
def calculateNextRetryAt (backoff jitter now : Nat) : Nat :=
  let b := backoff + jitter
  let b := if b > MAX_BACKOFF then MAX_BACKOFF else b
  now + b

/-- Go's `backoffData` holds the current delay and the absolute next-retry time. -/
structure backoffData where
  BackoffDelay : Nat
  NextRetryAt : Nat
  deriving DecidableEq, Repr

/-- A `BackoffStore`'s map `backoffs map[int]backoffData`, modelled as a
function from server id to optional entry (the mutex only serialises access
and is not part of the sequential semantics). -/
def BackoffStore := Int → Option backoffData

/-- Go's `NewBackoffStore` creates an empty map. -/
def NewBackoffStore : BackoffStore := fun _ => none

/-- Go's `UpdateBackoff`: if an entry exists for `serverID`, double-and-cap its
delay and recompute the next retry time; otherwise initialise the entry with
`BASE_BACKOFF`.  `now` and `jitter` are the explicit wall-clock and random
inputs of `calculateNextRetryAt`. -/
def UpdateBackoff (s : BackoffStore) (serverID : Int) (now jitter : Nat) : BackoffStore :=
  match s serverID with
  | some backoff =>
      let d := calculateNewBackoffDelay backoff.BackoffDelay
      fun k => if k = serverID then some ⟨d, calculateNextRetryAt d jitter now⟩ else s k
  | none =>
      fun k =>
        if k = serverID then some ⟨BASE_BACKOFF, calculateNextRetryAt BASE_BACKOFF jitter now⟩
        else s k

/-- Go's `ResetBackoff` deletes the entry for `serverID`. -/
def ResetBackoff (s : BackoffStore) (serverID : Int) : BackoffStore :=
  fun k => if k = serverID then none else s k

/-- A sequence of consecutive `UpdateBackoff(id)` calls, one per `(now, jitter)`
pair in the list. -/
def applyUpdates (s : BackoffStore) (serverID : Int) : List (Nat × Nat) → BackoffStore
  | [] => s
  | p :: ps => applyUpdates (UpdateBackoff s serverID p.1 p.2) serverID ps

/-- The delay stored for `serverID`, if any. -/
def storedDelay (s : BackoffStore) (serverID : Int) : Option Nat :=
  (s serverID).map backoffData.BackoffDelay

lemma updateBackoff_self_some (s : BackoffStore) (serverID : Int) (now jitter : Nat) :
    ∃ bd, UpdateBackoff s serverID now jitter serverID = some bd := by
  unfold UpdateBackoff
  cases h : s serverID <;> simp

lemma updateBackoff_fresh (s : BackoffStore) (serverID : Int) (now jitter : Nat)
    (h : s serverID = none) :
    UpdateBackoff s serverID now jitter serverID
      = some ⟨BASE_BACKOFF, calculateNextRetryAt BASE_BACKOFF jitter now⟩ := by
  unfold UpdateBackoff
  rw [h]
  simp

lemma updateBackoff_existing (s : BackoffStore) (serverID : Int) (now jitter : Nat)
    (bd : backoffData) (h : s serverID = some bd) :
    UpdateBackoff s serverID now jitter serverID
      = some ⟨calculateNewBackoffDelay bd.BackoffDelay,
              calculateNextRetryAt (calculateNewBackoffDelay bd.BackoffDelay) jitter now⟩ := by
  unfold UpdateBackoff
  rw [h]
  simp

/-- After any further updates on an existing entry, the stored delay is the
iterate of `calculateNewBackoffDelay` on the entry's delay. -/
lemma applyUpdates_existing_delay (ps : List (Nat × Nat)) :
    ∀ (s : BackoffStore) (serverID : Int) (bd : backoffData), s serverID = some bd →
      storedDelay (applyUpdates s serverID ps) serverID
        = some (calculateNewBackoffDelay^[ps.length] bd.BackoffDelay) := by
  induction ps with
  | nil =>
      intro s serverID bd h
      simp [applyUpdates, storedDelay, h]
  | cons p ps ih =>
      intro s serverID bd h
      have hstep := updateBackoff_existing s serverID p.1 p.2 bd h
      have := ih (UpdateBackoff s serverID p.1 p.2) serverID
        ⟨calculateNewBackoffDelay bd.BackoffDelay,
         calculateNextRetryAt (calculateNewBackoffDelay bd.BackoffDelay) p.2 p.1⟩ hstep
      simpa [applyUpdates, Function.iterate_succ_apply] using this

/-- Starting from no entry, a nonempty streak of updates stores the iterate of
`calculateNewBackoffDelay` on `BASE_BACKOFF`. -/
lemma applyUpdates_fresh_delay (s : BackoffStore) (serverID : Int)
    (p : Nat × Nat) (ps : List (Nat × Nat)) (h : s serverID = none) :
    storedDelay (applyUpdates s serverID (p :: ps)) serverID
      = some (calculateNewBackoffDelay^[ps.length] BASE_BACKOFF) := by
  have hstep := updateBackoff_fresh s serverID p.1 p.2 h
  have := applyUpdates_existing_delay ps (UpdateBackoff s serverID p.1 p.2) serverID
    ⟨BASE_BACKOFF, calculateNextRetryAt BASE_BACKOFF p.2 p.1⟩ hstep
  simpa [applyUpdates] using this

lemma calculateNewBackoffDelay_min (d : Nat) :
    calculateNewBackoffDelay (min d MAX_BACKOFF) = min (d * BACKOFF_FACTOR) MAX_BACKOFF := by
  simp only [calculateNewBackoffDelay, MAX_BACKOFF, BACKOFF_FACTOR, Nat.min_def]
  split_ifs <;> omega

/-- Closed form of the delay after `n` doublings of `BASE_BACKOFF`. -/
lemma iterate_calculateNewBackoffDelay (n : Nat) :
    calculateNewBackoffDelay^[n] BASE_BACKOFF
      = min (BASE_BACKOFF * BACKOFF_FACTOR ^ n) MAX_BACKOFF := by
  induction n with
  | zero => simp [BASE_BACKOFF, MAX_BACKOFF]
  | succ n ih =>
      rw [Function.iterate_succ_apply', ih, calculateNewBackoffDelay_min,
        pow_succ, ← Nat.mul_assoc]

/-- The stored delay after the first `k` calls of a fresh streak, in closed form. -/
lemma applyUpdates_take_delay (s : BackoffStore) (serverID : Int) (ps : List (Nat × Nat))
    (h : s serverID = none) (k : Nat) (hk : 0 < k) (hlen : k ≤ ps.length) :
    storedDelay (applyUpdates s serverID (ps.take k)) serverID
      = some (min (BASE_BACKOFF * BACKOFF_FACTOR ^ (k - 1)) MAX_BACKOFF) := by
  cases ps with
  | nil => simp at hlen; omega
  | cons p tl =>
      cases k with
      | zero => omega
      | succ k =>
          have hk' : k ≤ tl.length := by simpa using hlen
          rw [List.take_succ_cons, applyUpdates_fresh_delay s serverID p (tl.take k) h]
          rw [List.length_take, Nat.min_eq_left hk', iterate_calculateNewBackoffDelay]
          simp

/--
C1: For a server id with no prior backoff entry, after `N ≥ 1` consecutive
`UpdateBackoff(id)` calls (no intervening reset) the stored delay equals
`min(BASE_BACKOFF * BACKOFF_FACTOR^(N-1), MAX_BACKOFF)`; in particular every
prefix of length `k` of the streak leaves `min(BASE * 2^(k-1), MAX)`, the first
call leaves exactly `BASE_BACKOFF`, the delay is non-decreasing across the
streak, and it never exceeds `MAX_BACKOFF`.
-/
theorem updateBackoff_streak_closed_form (s : BackoffStore) (serverID : Int)
    (ps : List (Nat × Nat)) (h0 : s serverID = none) (hne : ps ≠ []) :
    storedDelay (applyUpdates s serverID ps) serverID
      = some (min (BASE_BACKOFF * BACKOFF_FACTOR ^ (ps.length - 1)) MAX_BACKOFF)
    ∧ (∀ k, 0 < k → k ≤ ps.length →
        storedDelay (applyUpdates s serverID (ps.take k)) serverID
          = some (min (BASE_BACKOFF * BACKOFF_FACTOR ^ (k - 1)) MAX_BACKOFF))
    ∧ storedDelay (applyUpdates s serverID (ps.take 1)) serverID = some BASE_BACKOFF
    ∧ (∀ j k dj dk, 0 < j → j ≤ k → k ≤ ps.length →
        storedDelay (applyUpdates s serverID (ps.take j)) serverID = some dj →
        storedDelay (applyUpdates s serverID (ps.take k)) serverID = some dk →
        dj ≤ dk ∧ dk ≤ MAX_BACKOFF) := by
  have hlen : 0 < ps.length := List.length_pos.mpr hne
  refine ⟨?_, ?_, ?_, ?_⟩
  · have := applyUpdates_take_delay s serverID ps h0 ps.length hlen le_rfl
    simpa [List.take_length] using this
  · intro k hk hk'
    exact applyUpdates_take_delay s serverID ps h0 k hk hk'
  · have := applyUpdates_take_delay s serverID ps h0 1 (by omega) hlen
    have hbase : min (BASE_BACKOFF * BACKOFF_FACTOR ^ (1 - 1)) MAX_BACKOFF = BASE_BACKOFF := by
      simp [BASE_BACKOFF, MAX_BACKOFF]
    rw [hbase] at this
    exact this
  · intro j k dj dk hj hjk hk hdj hdk
    have hcj := applyUpdates_take_delay s serverID ps h0 j hj (le_trans hjk hk)
    have hck := applyUpdates_take_delay s serverID ps h0 k (by omega) hk
    rw [hcj] at hdj
    rw [hck] at hdk
    have hdj' : dj = min (BASE_BACKOFF * BACKOFF_FACTOR ^ (j - 1)) MAX_BACKOFF :=
      (Option.some_inj.mp hdj).symm
    have hdk' : dk = min (BASE_BACKOFF * BACKOFF_FACTOR ^ (k - 1)) MAX_BACKOFF :=
      (Option.some_inj.mp hdk).symm
    subst hdj' hdk'
    constructor
    · have hpow : BACKOFF_FACTOR ^ (j - 1) ≤ BACKOFF_FACTOR ^ (k - 1) :=
        Nat.pow_le_pow_right (by norm_num [BACKOFF_FACTOR]) (by omega)
      exact min_le_min (Nat.mul_le_mul_left _ hpow) le_rfl
    · exact Nat.min_le_right _ _

/-- Witness for C1 at a concrete input: a fresh store and a streak of three
updates, whose stored delay is `min(1s * 2^2, 2min) = 4s`. -/
theorem updateBackoff_streak_closed_form_witness :
    storedDelay (applyUpdates NewBackoffStore 0 [(0, 0), (5, 7), (11, 3)]) 0
      = some (min (BASE_BACKOFF * BACKOFF_FACTOR ^ (2 : Nat)) MAX_BACKOFF) :=
  (updateBackoff_streak_closed_form NewBackoffStore 0 [(0, 0), (5, 7), (11, 3)] rfl
    (by decide)).1

/--
C6: For every prior state of the store, `ResetBackoff(id)` followed by
`UpdateBackoff(id)` produces exactly the first-call state for `id`: the entry
equals the one an update on a fresh store produces, and its delay is
`BASE_BACKOFF`.
-/
theorem resetBackoff_then_update_is_fresh (s : BackoffStore) (serverID : Int)
    (now jitter : Nat) :
    UpdateBackoff (ResetBackoff s serverID) serverID now jitter serverID
      = UpdateBackoff NewBackoffStore serverID now jitter serverID
    ∧ storedDelay (UpdateBackoff (ResetBackoff s serverID) serverID now jitter) serverID
      = some BASE_BACKOFF := by
  have hreset : ResetBackoff s serverID serverID = none := by
    simp [ResetBackoff]
  have hfresh : (NewBackoffStore : BackoffStore) serverID = none := rfl
  constructor
  · rw [updateBackoff_fresh _ _ _ _ hreset, updateBackoff_fresh _ _ _ _ hfresh]
  · rw [storedDelay, updateBackoff_fresh _ _ _ _ hreset]
    rfl

/-! ## RetryingHTTPExecutor: `DoWithBackoff` (config package)

`client.Do` is abstracted into an oracle `doReq : Nat → Except ε ρ` giving the
outcome of the n-th attempt (0-based), and the caller's context into an oracle
`cancel : Nat → Bool`, where `cancel n = true` means the cancellation signal
fires during the inter-attempt wait that follows attempt `n` (i.e. strictly
before that wait's timer elapses, so the `select` takes the `ctx.Done()`
branch).  The unbounded loop is made total with explicit `fuel`; `none` means
the fuel ran out before the loop returned. -/

/-- Outcome of `DoWithBackoff`: a response, the
`fmt.Errorf("max retries exceeded: %w", err)` error wrapping the last attempt's
error, or `ctx.Err()` after cancellation. -/
inductive DoResult (ρ ε : Type) where
  | ok (resp : ρ)
  | maxRetriesExceeded (last : ε)
  | ctxCancelled
  deriving DecidableEq

/-- The loop body of `DoWithBackoff`, carrying the attempt index, the `retries`
counter and the current `backoffDelay`.  The returned `Nat` is the total number
of attempts (`client.Do` calls) performed. -/
def DoWithBackoffGo {ρ ε : Type} (doReq : Nat → Except ε ρ) (cancel : Nat → Bool)
    (maxRetries : Nat) : Nat → Nat → Nat → Nat → Option (DoResult ρ ε × Nat)
  | 0, _, _, _ => none
  | fuel + 1, attempt, retries, backoffDelay =>
      match doReq attempt with
      | .ok resp => some (.ok resp, attempt + 1)
      | .error e =>
          if 0 < maxRetries ∧ maxRetries ≤ retries then
            some (.maxRetriesExceeded e, attempt + 1)
          else if cancel attempt then
            some (.ctxCancelled, attempt + 1)
          else
            DoWithBackoffGo doReq cancel maxRetries fuel (attempt + 1) (retries + 1)
              (calculateNewBackoffDelay backoffDelay)

/-- Go's `DoWithBackoff` starts with `backoffDelay = BASE_BACKOFF` and `retries = 0`. -/
def DoWithBackoff {ρ ε : Type} (doReq : Nat → Except ε ρ) (cancel : Nat → Bool)
    (maxRetries fuel : Nat) : Option (DoResult ρ ε × Nat) :=
  DoWithBackoffGo doReq cancel maxRetries fuel 0 0 BASE_BACKOFF

/--
C2: If every attempt fails at the transport level and `maxRetries = 3`,
`DoWithBackoff` performs exactly 4 attempts (one initial attempt plus 3
retries) and returns the "max retries exceeded" error wrapping the error of
the last (4th) failed attempt — no response.
-/
theorem doWithBackoff_exhausts_retries {ρ ε : Type} (doReq : Nat → Except ε ρ)
    (errs : Nat → ε) (herr : ∀ n, doReq n = .error (errs n))
    (cancel : Nat → Bool) (hcancel : ∀ n, cancel n = false)
    (fuel : Nat) (hfuel : 4 ≤ fuel) :
    DoWithBackoff doReq cancel 3 fuel = some (.maxRetriesExceeded (errs 3), 4) := by
  obtain ⟨f, rfl⟩ : ∃ f, fuel = f + 4 := ⟨fuel - 4, by omega⟩
  show DoWithBackoffGo doReq cancel 3 (f + 4) 0 0 BASE_BACKOFF = _
  rw [show f + 4 = (f + 3) + 1 from rfl, DoWithBackoffGo, herr 0]
  rw [show f + 3 = (f + 2) + 1 from rfl, DoWithBackoffGo, herr 1]
  rw [show f + 2 = (f + 1) + 1 from rfl, DoWithBackoffGo, herr 2]
  rw [DoWithBackoffGo, herr 3]
  simp [hcancel]

/-- Witness for C2: with every attempt failing with its index as the error and
10 units of fuel, the loop returns the exhaustion error wrapping the error of
attempt 3, after exactly 4 attempts. -/
theorem doWithBackoff_exhausts_retries_witness :
    DoWithBackoff (ρ := Unit) (fun n => .error n) (fun _ => false) 3 10
      = some (.maxRetriesExceeded 3, 4) :=
  doWithBackoff_exhausts_retries (fun n => .error n) (fun n => n) (fun _ => rfl)
    (fun _ => false) (fun _ => rfl) 10 (by omega)

/-- If the loop reaches the inter-attempt wait after attempt `k` (every attempt
up to `k` fails, no earlier wait was cancelled, the retry bound has not been
hit) and the cancellation signal fires during that wait, the loop returns the
cancellation error from within that wait: exactly `k + 1` attempts happen. -/
lemma doWithBackoffGo_cancel_reach {ρ ε : Type} (doReq : Nat → Except ε ρ)
    (cancel : Nat → Bool) (maxRetries : Nat) :
    ∀ (fuel a d k : Nat), a ≤ k →
      (∀ i, a ≤ i → i ≤ k → ∃ e, doReq i = .error e) →
      (∀ i, a ≤ i → i < k → cancel i = false) →
      (maxRetries = 0 ∨ k < maxRetries) → cancel k = true → k < fuel + a →
      DoWithBackoffGo doReq cancel maxRetries fuel a a d = some (.ctxCancelled, k + 1) := by
  intro fuel
  induction fuel with
  | zero => intro a d k hak _ _ _ _ hfuel; omega
  | succ fuel ih =>
      intro a d k hak herr hquiet hmr hc hfuel
      obtain ⟨e, he⟩ := herr a le_rfl hak
      rw [DoWithBackoffGo, he]
      dsimp only
      have hmax : ¬(0 < maxRetries ∧ maxRetries ≤ a) := by omega
      rw [if_neg hmax]
      by_cases hak' : a = k
      · subst hak'
        rw [if_pos hc]
      · have halt : a < k := lt_of_le_of_ne hak hak'
        rw [hquiet a le_rfl halt]
        simp only [Bool.false_eq_true, if_false]
        exact ih (a + 1) (calculateNewBackoffDelay d) k (by omega)
          (fun i h1 h2 => herr i (by omega) h2)
          (fun i h1 h2 => hquiet i (by omega) h2) hmr hc (by omega)

/-- A cancellation result only ever arises after a failed attempt whose
following wait was cancelled — never when the attempt just performed returned
a successful response. -/
lemma doWithBackoffGo_cancel_inv {ρ ε : Type} (doReq : Nat → Except ε ρ)
    (cancel : Nat → Bool) (maxRetries : Nat) :
    ∀ (fuel a r d n : Nat),
      DoWithBackoffGo doReq cancel maxRetries fuel a r d = some (.ctxCancelled, n) →
      0 < n ∧ (∃ e, doReq (n - 1) = .error e) ∧ cancel (n - 1) = true := by
  intro fuel
  induction fuel with
  | zero => intro a r d n h; simp [DoWithBackoffGo] at h
  | succ fuel ih =>
      intro a r d n h
      rw [DoWithBackoffGo] at h
      cases hq : doReq a with
      | ok resp => rw [hq] at h; simp at h
      | error e =>
          rw [hq] at h
          dsimp only at h
          by_cases h1 : 0 < maxRetries ∧ maxRetries ≤ r
          · rw [if_pos h1] at h; simp at h
          · rw [if_neg h1] at h
            by_cases h2 : cancel a = true
            · rw [if_pos h2] at h
              have hn : n = a + 1 := by
                have := Option.some_inj.mp h
                exact (Prod.ext_iff.mp this).2.symm
              subst hn
              exact ⟨by omega, ⟨e, by simpa using hq⟩, by simpa using h2⟩
            · rw [if_neg h2] at h
              exact ih (a + 1) (r + 1) (calculateNewBackoffDelay d) n h

/--
C8: Whenever the caller's cancellation signal fires during the
inter-attempt wait that the loop has reached (after attempt `k`: all attempts
through `k` transport-fail, no earlier wait was cancelled, and the retry bound
is not yet hit), `DoWithBackoff` returns the context's cancellation error from
within that wait — exactly `k + 1` attempts occur, the wait is not completed —
and a cancellation error is only ever returned after a failed attempt with a
cancelled wait, never in place of an available successful response.
-/
theorem doWithBackoff_cancellation {ρ ε : Type} (doReq : Nat → Except ε ρ)
    (cancel : Nat → Bool) (maxRetries fuel : Nat) :
    (∀ k, (∀ i, i ≤ k → ∃ e, doReq i = .error e) →
      (∀ i, i < k → cancel i = false) →
      (maxRetries = 0 ∨ k < maxRetries) → cancel k = true → k < fuel →
      DoWithBackoff doReq cancel maxRetries fuel = some (.ctxCancelled, k + 1))
    ∧ (∀ n, DoWithBackoff doReq cancel maxRetries fuel = some (.ctxCancelled, n) →
        0 < n ∧ (∃ e, doReq (n - 1) = .error e) ∧ cancel (n - 1) = true) := by
  constructor
  · intro k herr hquiet hmr hc hfuel
    exact doWithBackoffGo_cancel_reach doReq cancel maxRetries fuel 0 BASE_BACKOFF k
      (Nat.zero_le k) (fun i _ h2 => herr i h2) (fun i _ h2 => hquiet i h2) hmr hc
      (by omega)
  · intro n h
    exact doWithBackoffGo_cancel_inv doReq cancel maxRetries fuel 0 0 BASE_BACKOFF n h

/-- Witness for C8: every attempt fails, the signal fires during the wait after
attempt 1, no retry bound; the loop returns the cancellation error after
exactly 2 attempts. -/
theorem doWithBackoff_cancellation_witness :
    DoWithBackoff (ρ := Unit) (fun _ => .error (0 : Nat)) (fun n => n == 1) 0 5
      = some (.ctxCancelled, 2) :=
  (doWithBackoff_cancellation (ρ := Unit) (fun _ => .error (0 : Nat))
    (fun n => n == 1) 0 5).1 1 (fun i _ => ⟨0, rfl⟩)
    (fun i hi => by
      interval_cases i
      · rfl)
    (Or.inl rfl) (by decide) (by omega)

/-! ## Bundle download: `downloadGTFSBundle` (internal/gtfs)

The response is modelled with its status code and its (already received) body;
`io.ReadAll` and `remoteGtfs.ParseStatic` are oracles supplied by the caller.
-/

/-- Go's `http.StatusOK`. -/
def StatusOK : Nat := 200

/-- An `*http.Response`, reduced to the fields `downloadGTFSBundle` reads. -/
structure HttpResponse (β : Type) where
  StatusCode : Nat
  Body : β

/-- Go's `downloadGTFSBundle`: build the GET request (`newRequestErr` models
`http.NewRequest` failing), execute it through `DoWithBackoff`, reject any
status other than `http.StatusOK`, read the body, parse it.  `none` means the
executor's fuel ran out (the Go loop was still running). -/
def downloadGTFSBundle {β γ δ : Type} (url : String) (newRequestErr : Option String)
    (doReq : Nat → Except String (HttpResponse β)) (cancel : Nat → Bool)
    (maxRetries fuel : Nat) (readAll : β → Except String γ)
    (parseStatic : γ → Except String δ) : Option (Except String δ) :=
  match newRequestErr with
  | some e => some (.error ("failed to create request for " ++ url ++ ": " ++ e))
  | none =>
      match DoWithBackoff doReq cancel maxRetries fuel with
      | none => none
      | some (.maxRetriesExceeded e, _) =>
          some (.error ("failed to make GET request to " ++ url
            ++ ": max retries exceeded: " ++ e))
      | some (.ctxCancelled, _) =>
          some (.error ("failed to make GET request to " ++ url ++ ": context error"))
      | some (.ok resp, _) =>
          if resp.StatusCode ≠ StatusOK then
            some (.error ("unexpected response status " ++ toString resp.StatusCode
              ++ " when downloading GTFS bundle from " ++ url))
          else
            match readAll resp.Body with
            | .error _ =>
                some (.error ("failed to read GTFS bundle response body from " ++ url))
            | .ok data =>
                match parseStatic data with
                | .error _ =>
                    some (.error ("failed to parse GTFS static data from " ++ url))
                | .ok staticBundle => some (.ok staticBundle)

/--
C7: If the executor succeeds at the transport level but the response's
status is not `http.StatusOK`, `downloadGTFSBundle` returns no bundle and an
error message retaining both the status code and the URL; and the executor
itself never retries on status: as soon as an attempt's transport error is
nil it returns that response — a first-attempt success yields exactly one
attempt, whatever the status code.
-/
theorem downloadGTFSBundle_status_failure {β γ δ : Type} (url : String)
    (doReq : Nat → Except String (HttpResponse β)) (cancel : Nat → Bool)
    (maxRetries fuel : Nat) (readAll : β → Except String γ)
    (parseStatic : γ → Except String δ) (resp : HttpResponse β) (n : Nat)
    (hresp : DoWithBackoff doReq cancel maxRetries fuel = some (.ok resp, n))
    (hstatus : resp.StatusCode ≠ StatusOK) :
    downloadGTFSBundle url none doReq cancel maxRetries fuel readAll parseStatic
      = some (.error ("unexpected response status " ++ toString resp.StatusCode
          ++ " when downloading GTFS bundle from " ++ url))
    ∧ (∀ (resp' : HttpResponse β) (fuel' : Nat), doReq 0 = .ok resp' →
        DoWithBackoff doReq cancel maxRetries (fuel' + 1) = some (.ok resp', 1)) := by
  constructor
  · unfold downloadGTFSBundle
    rw [hresp]
    dsimp only
    rw [if_pos hstatus]
  · intro resp' fuel' hok
    show DoWithBackoffGo doReq cancel maxRetries (fuel' + 1) 0 0 BASE_BACKOFF = _
    rw [DoWithBackoffGo, hok]

/-- Witness for C7: a single attempt that returns status 500 makes the
download fail with the status and URL in the error, and a first-attempt
transport success is returned after exactly one attempt. -/
theorem downloadGTFSBundle_status_failure_witness :
    downloadGTFSBundle (β := Unit) (γ := Unit) (δ := Unit) "http://x" none
        (fun _ => .ok ⟨500, ()⟩) (fun _ => false) 3 1 (fun _ => .ok ())
        (fun _ => .ok ())
      = some (.error ("unexpected response status " ++ toString (500 : Nat)
          ++ " when downloading GTFS bundle from " ++ "http://x")) :=
  (downloadGTFSBundle_status_failure "http://x" (fun _ => .ok ⟨500, ()⟩)
    (fun _ => false) 3 1 (fun _ => .ok ()) (fun _ => .ok ()) ⟨500, ()⟩ 1 rfl
    (by decide)).1

/-! ## ConsistencyReconciler (internal/metrics)

An OBA SDK call's Go result `(response, err)` is one of: an error, a nil
response with nil error, or a response carrying a list (its trips, resp. its
agencies-with-coverage list).  Prometheus gauge writes are modelled as the
values the functions return/emit. -/

/-- A `(response, err)` pair returned by the OBA SDK client. -/
inductive ApiResult (α : Type) where
  | err (e : String)
  | missing
  | ok (l : List α)
  deriving DecidableEq

/-- Go's `GetScheduledTripRoute`: returns the SDK error, or 0 for a nil response,
or the number of trips `len(response.Data.Entry.Trips)` (Go's `(int, error)`
pair is the `Nat × Option String`). -/
def GetScheduledTripRoute {τ : Type} (api : ApiResult τ) : Nat × Option String :=
  match api with
  | .err e => (0, some e)
  | .missing => (0, none)
  | .ok trips => (trips.length, none)

/-- Go's `CountScheduledTripRoute`: parse the cached bundle (`parsed` is the
outcome of the read + `gtfs.ParseStatic` steps, as a list of the trips' route
ids) and count the trips whose `trip.Route.Id == routeID`. -/
def CountScheduledTripRoute (parsed : Except String (List String))
    (routeID : String) : Nat × Option String :=
  match parsed with
  | .error e => (0, some e)
  | .ok trips => ((trips.filter (fun rid => rid == routeID)).length, none)

/-- Go's `CheckScheduledTripRoute`: fetch the API count (abort on its error), fetch
the local count (abort on its error), then emit `1` if they are equal and `0`
otherwise.  The result is `(returned error, emitted match indicator)`. -/
def CheckScheduledTripRoute {τ : Type} (api : ApiResult τ)
    (parsed : Except String (List String)) (routeID : String) :
    Option String × Option Nat :=
  match (GetScheduledTripRoute api).2 with
  | some _ => (some "failed to count scheduled trip routes from API", none)
  | none =>
      match (CountScheduledTripRoute parsed routeID).2 with
      | some _ => (some "failed to count scheduled trip routes from GTFS-RT", none)
      | none =>
          (none,
            some (if (GetScheduledTripRoute api).1
                = (CountScheduledTripRoute parsed routeID).1 then 1 else 0))

/--
C3: Whenever the API call does not fail (it returns a response or a nil
response), the reconciler raises no error and emits a match indicator `m`
with `m = 1` iff the API trip count equals the locally counted trip count
(`m` is 0 or 1); a nil (absent) API response is treated as API count 0, so
the check still completes and emits the indicator.
-/
theorem checkScheduledTripRoute_match {τ : Type} (api : ApiResult τ)
    (trips : List String) (routeID : String) (hok : ∀ e, api ≠ .err e) :
    ∃ m, CheckScheduledTripRoute api (.ok trips) routeID = (none, some m)
      ∧ (m = 1 ↔ (GetScheduledTripRoute api).1
          = (CountScheduledTripRoute (.ok trips) routeID).1)
      ∧ (m = 0 ∨ m = 1)
      ∧ (api = .missing → (GetScheduledTripRoute api).1 = 0) := by
  cases api with
  | err e => exact absurd rfl (hok e)
  | missing =>
      refine ⟨if (GetScheduledTripRoute (ApiResult.missing (α := τ))).1
          = (CountScheduledTripRoute (.ok trips) routeID).1 then 1 else 0, rfl, ?_, ?_, ?_⟩
      · split_ifs with h <;> simp [h]
      · split_ifs <;> simp
      · intro _; rfl
  | ok l =>
      refine ⟨if (GetScheduledTripRoute (ApiResult.ok l)).1
          = (CountScheduledTripRoute (.ok trips) routeID).1 then 1 else 0, rfl, ?_, ?_, ?_⟩
      · split_ifs with h <;> simp [h]
      · split_ifs <;> simp
      · intro h; cases h

/-- Witness for C3: a nil API response against a local bundle holding one trip
on the route: the check completes and the emitted indicator is 0. -/
theorem checkScheduledTripRoute_match_witness :
    ∃ m, CheckScheduledTripRoute (τ := Unit) .missing (.ok ["r1", "r2"]) "r1"
        = (none, some m)
      ∧ (m = 1 ↔ (GetScheduledTripRoute (τ := Unit) .missing).1
          = (CountScheduledTripRoute (.ok ["r1", "r2"]) "r1").1)
      ∧ (m = 0 ∨ m = 1)
      ∧ ((ApiResult.missing (α := Unit)) = .missing
          → (GetScheduledTripRoute (τ := Unit) .missing).1 = 0) :=
  checkScheduledTripRoute_match .missing ["r1", "r2"] "r1"
    (fun _ h => ApiResult.noConfusion h)

/-- Go's `CheckAgenciesWithCoverage`: read and parse the cached static bundle
(`parsed` is the outcome, as the agency list), fail when it holds no
agencies, otherwise emit and return `len(staticData.Agencies)`. -/
def CheckAgenciesWithCoverage {α : Type} (parsed : Except String (List α)) :
    Nat × Option String :=
  match parsed with
  | .error e => (0, some e)
  | .ok agencies =>
      if agencies.length = 0 then (0, some "no agencies found in GTFS bundle")
      else (agencies.length, none)

/-- Go's `GetAgenciesWithCoverage`: the SDK error, or 0 for a nil response, or
`len(response.Data.List)`. -/
def GetAgenciesWithCoverage {β : Type} (api : ApiResult β) : Nat × Option String :=
  match api with
  | .err e => (0, some e)
  | .missing => (0, none)
  | .ok l => (l.length, none)

/-- Go's `CheckAgenciesWithCoverageMatch`: abort on a static-side error; then take
the coverage count from `GetAgenciesWithCoverage` — whose error the code
assigns but never checks — and emit `1` iff the counts are equal.  The result
is `(returned error, emitted match indicator)`. -/
def CheckAgenciesWithCoverageMatch {α β : Type} (parsed : Except String (List α))
    (api : ApiResult β) : Option String × Option Nat :=
  match CheckAgenciesWithCoverage parsed with
  | (_, some e) => (some e, none)
  | (staticGtfsAgenciesCount, none) =>
      (none,
        some (if (GetAgenciesWithCoverage api).1 = staticGtfsAgenciesCount
          then 1 else 0))

/--
C9: An error fetching the API-side agencies-with-coverage count is
ignored: the API count is taken as 0, the match indicator is still computed
and emitted (0 when the static count is non-zero), and the function returns
nil — whereas a failure on the static side aborts with an error before any
match is emitted.
-/
theorem checkAgenciesWithCoverageMatch_ignores_api_error {α β : Type}
    (agencies : List α) (e : String) (api : ApiResult β)
    (hne : agencies.length ≠ 0) :
    CheckAgenciesWithCoverageMatch (.ok agencies) (ApiResult.err (α := β) e)
      = (none, some 0)
    ∧ CheckAgenciesWithCoverageMatch (Except.error (ε := String) (α := List α) e) api
      = (some e, none) := by
  constructor
  · unfold CheckAgenciesWithCoverageMatch CheckAgenciesWithCoverage
      GetAgenciesWithCoverage
    dsimp only
    rw [if_neg hne]
    dsimp only
    rw [if_neg (fun h => hne h.symm)]
  · rfl

/-- Witness for C9: one static agency, a failing API call: match 0 emitted and
nil returned; a static read error aborts with that error. -/
theorem checkAgenciesWithCoverageMatch_ignores_api_error_witness :
    CheckAgenciesWithCoverageMatch (.ok [()]) (ApiResult.err (α := Unit) "api down")
      = (none, some 0)
    ∧ CheckAgenciesWithCoverageMatch
        (Except.error (ε := String) (α := List Unit) "api down")
        (ApiResult.missing (α := Unit))
      = (some "api down", none) :=
  checkAgenciesWithCoverageMatch_ignores_api_error [()] "api down" .missing
    (by decide)

/-! ## Bundle storage and service dates (internal/gtfs, internal/geo, internal/models)

Stop coordinates are modelled as integers and `time.Time` end-dates as `Nat`
(both carry only their linear order here).  Keyed stores are functions
`Int → Option V` with an atomic per-key `set`. -/

/-- A stop's coordinates. -/
structure Stop where
  Lat : Int
  Lon : Int
  deriving DecidableEq

/-- A service/calendar entry, reduced to its `EndDate`. -/
structure Service where
  EndDate : Nat
  deriving DecidableEq

/-- The parsed GTFS static bundle, restricted to the fields the application
projects out of it. -/
structure GtfsStatic where
  Stops : List Stop
  Services : List Service
  Trips : List String
  Routes : List String
  Agencies : List String

/-- The reduced snapshot kept in the static store. -/
structure StaticData where
  Stops : List Stop
  Services : List Service
  Trips : List String
  Routes : List String
  Agencies : List String

/-- Modelled from the spec: `models.NewStaticData` (the models package is not
among the sources) projects the parsed bundle into the minimal snapshot
fields — stops, services, trips, routes, agencies — discarding the rest. -/
def NewStaticData (b : GtfsStatic) : StaticData :=
  ⟨b.Stops, b.Services, b.Trips, b.Routes, b.Agencies⟩

/-- The smallest axis-aligned lat/lon rectangle around a set of stops. -/
structure BoundingBox where
  minLat : Int
  maxLat : Int
  minLon : Int
  maxLon : Int
  deriving DecidableEq

/-- Modelled from the spec: `geo.ComputeBoundingBox` (the geo package is not
among the sources) fails with an explicit error on an empty stop list and
otherwise min/max-folds latitude and longitude independently. -/
def ComputeBoundingBox (stops : List Stop) : Except String BoundingBox :=
  match stops with
  | [] => .error "no stops provided"
  | s :: rest =>
      .ok (rest.foldl
        (fun bb st =>
          ⟨min bb.minLat st.Lat, max bb.maxLat st.Lat,
           min bb.minLon st.Lon, max bb.maxLon st.Lon⟩)
        ⟨s.Lat, s.Lat, s.Lon, s.Lon⟩)

/-- A keyed snapshot store (`StaticStore`, `BoundingBoxStore`), as a map from
server id to value; the store's mutex only serialises access. -/
def Store (V : Type) := Int → Option V

/-- Go's `Set` replaces the value under one key wholesale. -/
def Store.set {V : Type} (s : Store V) (serverID : Int) (v : V) : Store V :=
  fun k => if k = serverID then some v else s k

/-- Go's `storeGTFSBundle`: reduce the bundle with `NewStaticData`, write it to the
static store, then compute the bounding box of the snapshot's stops; on
computation failure return an error (leaving the bounding-box store alone),
otherwise write the box.  Returns Go's `error` plus both stores' new states. -/
def storeGTFSBundle (staticBundle : GtfsStatic) (serverID : Int)
    (staticStore : Store StaticData) (boundingBoxStore : Store BoundingBox) :
    Except String Unit × Store StaticData × Store BoundingBox :=
  let staticData := NewStaticData staticBundle
  let staticStore' := staticStore.set serverID staticData
  match ComputeBoundingBox staticData.Stops with
  | .error _ =>
      (.error "could not compute bounding box for server_id", staticStore', boundingBoxStore)
  | .ok bbox => (.ok (), staticStore', boundingBoxStore.set serverID bbox)

/--
C4: If bounding-box computation fails for the reduced snapshot (as it does
whenever the stop list is empty), `storeGTFSBundle` returns an error and the
bounding-box store is left exactly as it was — any previously stored box for
the server id is unchanged; when the computation succeeds, the box is written
under the server id.
-/
theorem storeGTFSBundle_bbox_frame (b : GtfsStatic) (serverID : Int)
    (ss : Store StaticData) (bs : Store BoundingBox) :
    ((∃ e, ComputeBoundingBox (NewStaticData b).Stops = .error e) →
      (∃ e', (storeGTFSBundle b serverID ss bs).1 = .error e')
      ∧ (storeGTFSBundle b serverID ss bs).2.2 = bs)
    ∧ (∀ bbox, ComputeBoundingBox (NewStaticData b).Stops = .ok bbox →
        (storeGTFSBundle b serverID ss bs).1 = .ok ()
        ∧ (storeGTFSBundle b serverID ss bs).2.2 serverID = some bbox)
    ∧ ((NewStaticData b).Stops = [] →
        ∃ e, ComputeBoundingBox (NewStaticData b).Stops = .error e) := by
  refine ⟨?_, ?_, ?_⟩
  · rintro ⟨e, he⟩
    unfold storeGTFSBundle
    dsimp only
    rw [he]
    exact ⟨⟨_, rfl⟩, rfl⟩
  · intro bbox hb
    unfold storeGTFSBundle
    dsimp only
    rw [hb]
    exact ⟨rfl, by simp [Store.set]⟩
  · intro hempty
    unfold ComputeBoundingBox
    rw [hempty]
    exact ⟨_, rfl⟩

/-- Witness for C4: a bundle with no stops leaves a previously stored bounding
box untouched and makes `storeGTFSBundle` fail. -/
theorem storeGTFSBundle_bbox_frame_witness :
    ((∃ e, ComputeBoundingBox (NewStaticData ⟨[], [], [], [], []⟩).Stops = .error e) →
      (∃ e', (storeGTFSBundle ⟨[], [], [], [], []⟩ 7 (fun _ => none)
          (fun _ => some ⟨1, 2, 3, 4⟩)).1 = .error e')
      ∧ (storeGTFSBundle ⟨[], [], [], [], []⟩ 7 (fun _ => none)
          (fun _ => some ⟨1, 2, 3, 4⟩)).2.2 = (fun _ => some ⟨1, 2, 3, 4⟩))
    ∧ (∀ bbox, ComputeBoundingBox (NewStaticData ⟨[], [], [], [], []⟩).Stops = .ok bbox →
        (storeGTFSBundle ⟨[], [], [], [], []⟩ 7 (fun _ => none)
            (fun _ => some ⟨1, 2, 3, 4⟩)).1 = .ok ()
        ∧ (storeGTFSBundle ⟨[], [], [], [], []⟩ 7 (fun _ => none)
            (fun _ => some ⟨1, 2, 3, 4⟩)).2.2 7 = some bbox)
    ∧ ((NewStaticData ⟨[], [], [], [], []⟩).Stops = [] →
        ∃ e, ComputeBoundingBox (NewStaticData ⟨[], [], [], [], []⟩).Stops = .error e) :=
  storeGTFSBundle_bbox_frame ⟨[], [], [], [], []⟩ 7 (fun _ => none)
    (fun _ => some ⟨1, 2, 3, 4⟩)

/--
C10: `storeGTFSBundle` writes the reduced snapshot into the static store
unconditionally — on the bounding-box error path as much as on success — so a
derivation error never rolls back or skips the static-store write: the
returned static store is exactly the input store with the new snapshot set
under the server id.
-/
theorem storeGTFSBundle_always_writes_static (b : GtfsStatic) (serverID : Int)
    (ss : Store StaticData) (bs : Store BoundingBox) :
    (storeGTFSBundle b serverID ss bs).2.1 = ss.set serverID (NewStaticData b)
    ∧ (storeGTFSBundle b serverID ss bs).2.1 serverID = some (NewStaticData b) := by
  unfold storeGTFSBundle
  dsimp only
  cases h : ComputeBoundingBox (NewStaticData b).Stops <;>
    exact ⟨rfl, by simp [Store.set]⟩

/-- The loop body of `getEarliestAndLatestServiceDates`: lower the running
earliest end-date when the service's end-date is `Before` it, raise the
running latest when the service's end-date is `After` it. -/
def serviceFoldStep (p : Nat × Nat) (service : Service) : Nat × Nat :=
  (if service.EndDate < p.1 then service.EndDate else p.1,
   if p.2 < service.EndDate then service.EndDate else p.2)

/-- Go's `getEarliestAndLatestServiceDates`: error when the static data is nil or
holds no services; otherwise scan every service entry starting both
accumulators at `Services[0].EndDate`. -/
def getEarliestAndLatestServiceDates (staticData : Option StaticData) :
    Except String (Nat × Nat) :=
  match staticData with
  | none => .error "static data is nil"
  | some sd =>
      match sd.Services with
      | [] => .error "no services found in GTFS bundle"
      | s0 :: rest =>
          .ok ((s0 :: rest).foldl serviceFoldStep (s0.EndDate, s0.EndDate))

/-- The fold's first component is the minimum of the initial accumulator and
the traversed end-dates; its second the corresponding maximum. -/
lemma serviceFold_spec (l : List Service) : ∀ p : Nat × Nat,
    (l.foldl serviceFoldStep p).1 ≤ p.1 ∧ p.2 ≤ (l.foldl serviceFoldStep p).2
    ∧ ((l.foldl serviceFoldStep p).1 = p.1
        ∨ (l.foldl serviceFoldStep p).1 ∈ l.map Service.EndDate)
    ∧ ((l.foldl serviceFoldStep p).2 = p.2
        ∨ (l.foldl serviceFoldStep p).2 ∈ l.map Service.EndDate)
    ∧ (∀ d ∈ l.map Service.EndDate,
        (l.foldl serviceFoldStep p).1 ≤ d ∧ d ≤ (l.foldl serviceFoldStep p).2) := by
  induction l with
  | nil => intro p; simp
  | cons s t ih =>
      intro p
      rw [List.foldl_cons]
      obtain ⟨ih1, ih2, ih3, ih4, ih5⟩ := ih (serviceFoldStep p s)
      have hstep1 : (serviceFoldStep p s).1 ≤ p.1 ∧ (serviceFoldStep p s).1 ≤ s.EndDate
          ∧ ((serviceFoldStep p s).1 = p.1 ∨ (serviceFoldStep p s).1 = s.EndDate) := by
        unfold serviceFoldStep
        dsimp only
        split_ifs <;> omega
      have hstep2 : p.2 ≤ (serviceFoldStep p s).2 ∧ s.EndDate ≤ (serviceFoldStep p s).2
          ∧ ((serviceFoldStep p s).2 = p.2 ∨ (serviceFoldStep p s).2 = s.EndDate) := by
        unfold serviceFoldStep
        dsimp only
        split_ifs <;> omega
      refine ⟨le_trans ih1 hstep1.1, le_trans hstep2.1 ih2, ?_, ?_, ?_⟩
      · rcases ih3 with h | h
        · rcases hstep1.2.2 with h' | h'
          · exact Or.inl (h.trans h')
          · refine Or.inr ?_
            simp only [List.map_cons, List.mem_cons]
            exact Or.inl (h.trans h')
        · refine Or.inr ?_
          simp only [List.map_cons, List.mem_cons]
          exact Or.inr h
      · rcases ih4 with h | h
        · rcases hstep2.2.2 with h' | h'
          · exact Or.inl (h.trans h')
          · refine Or.inr ?_
            simp only [List.map_cons, List.mem_cons]
            exact Or.inl (h.trans h')
        · refine Or.inr ?_
          simp only [List.map_cons, List.mem_cons]
          exact Or.inr h
      · intro d hd
        simp only [List.map_cons, List.mem_cons] at hd
        rcases hd with rfl | hd
        · exact ⟨le_trans ih1 hstep1.2.1, le_trans hstep2.2.1 ih2⟩
        · exact ih5 d hd

/--
C5: `getEarliestAndLatestServiceDates` errors exactly when the snapshot is
nil or its service list is empty; on a non-empty service list it returns the
pair (minimum end-date, maximum end-date): both components are end-dates of
some service, the first bounds every service's end-date from below and the
second from above.
-/
theorem getEarliestAndLatestServiceDates_spec (staticData : Option StaticData) :
    ((∃ e, getEarliestAndLatestServiceDates staticData = .error e)
      ↔ staticData = none ∨ ∃ sd, staticData = some sd ∧ sd.Services = [])
    ∧ (∀ sd, staticData = some sd → sd.Services ≠ [] →
        ∃ a b, getEarliestAndLatestServiceDates staticData = .ok (a, b)
          ∧ a ∈ sd.Services.map Service.EndDate
          ∧ b ∈ sd.Services.map Service.EndDate
          ∧ ∀ d ∈ sd.Services.map Service.EndDate, a ≤ d ∧ d ≤ b) := by
  constructor
  · constructor
    · rintro ⟨e, he⟩
      cases hsd : staticData with
      | none => exact Or.inl rfl
      | some sd =>
          refine Or.inr ⟨sd, rfl, ?_⟩
          cases hsv : sd.Services with
          | nil => rfl
          | cons s0 rest =>
              rw [hsd] at he
              simp [getEarliestAndLatestServiceDates, hsv] at he
    · rintro (rfl | ⟨sd, rfl, hsv⟩)
      · exact ⟨_, rfl⟩
      · exact ⟨"no services found in GTFS bundle",
          by simp [getEarliestAndLatestServiceDates, hsv]⟩
  · rintro sd rfl hne
    cases hsv : sd.Services with
    | nil => exact absurd hsv hne
    | cons s0 rest =>
        obtain ⟨h1, h2, h3, h4, h5⟩ :=
          serviceFold_spec (s0 :: rest) (s0.EndDate, s0.EndDate)
        refine ⟨((s0 :: rest).foldl serviceFoldStep (s0.EndDate, s0.EndDate)).1,
          ((s0 :: rest).foldl serviceFoldStep (s0.EndDate, s0.EndDate)).2,
          ?_, ?_, ?_, ?_⟩
        · simp [getEarliestAndLatestServiceDates, hsv]
        · rcases h3 with h | h
          · rw [h]; simp
          · exact h
        · rcases h4 with h | h
          · rw [h]; simp
          · exact h
        · exact h5

/-- Witness for C5: over end-dates [20240101, 20240601, 20240301] the function
returns a pair that is an (attained) lower and upper bound of all three. -/
theorem getEarliestAndLatestServiceDates_spec_witness :
    ∃ a b, getEarliestAndLatestServiceDates
          (some ⟨[], [⟨20240101⟩, ⟨20240601⟩, ⟨20240301⟩], [], [], []⟩) = .ok (a, b)
      ∧ a ∈ ([⟨20240101⟩, ⟨20240601⟩, ⟨20240301⟩] : List Service).map Service.EndDate
      ∧ b ∈ ([⟨20240101⟩, ⟨20240601⟩, ⟨20240301⟩] : List Service).map Service.EndDate
      ∧ ∀ d ∈ ([⟨20240101⟩, ⟨20240601⟩, ⟨20240301⟩] : List Service).map Service.EndDate,
          a ≤ d ∧ d ≤ b :=
  (getEarliestAndLatestServiceDates_spec
      (some ⟨[], [⟨20240101⟩, ⟨20240601⟩, ⟨20240301⟩], [], [], []⟩)).2
    ⟨[], [⟨20240101⟩, ⟨20240601⟩, ⟨20240301⟩], [], [], []⟩ rfl (by simp)

end Watchdog
